import Mathlib

/-!
Verification of the gossip messaging core of the decentralized disaster-response
node: the in-memory `MessageStorage` (storage.py), the `HelpRequest` data model
(models.py), the `P2PNode` gossip layer (p2p.py) and the handler wiring of
main.py, shallowly embedded as pure Lean functions.  Python dicts and sets are
modelled as insertion-ordered association lists / lists (CPython dicts preserve
insertion order; sets are modelled in insertion order), wall-clock time is an
explicit rational parameter `now`, and float coordinates are modelled as reals.
CPython sets do not guarantee iteration order, so the seen-set trim
`set(list(...)[-5000:])` keeps an arbitrary 5000 ids in the program; the model
takes the insertion-order suffix, which is one realizable outcome.  Theorems
therefore assert only order-independent consequences of the trim (its size and
that survivors come from the pre-trim set), except where a counterexample only
needs to exhibit one realizable run.
-/

namespace DisasterNet

/-- models.py `RequestPriority`. -/
inductive RequestPriority
  | critical
  | high
  | medium
  | low
deriving DecidableEq, Repr

/-- models.py `RequestType`. -/
inductive RequestType
  | medical
  | rescue
  | shelter
  | food_water
  | transport
  | info
deriving DecidableEq, Repr

/-- models.py `GeoLocation`: float degrees, modelled over ℝ. -/
structure GeoLocation where
  latitude : ℝ
  longitude : ℝ
  accuracy_meters : Option ℝ := none
  altitude_meters : Option ℝ := none

/-- models.py `HelpRequest`.  `timestamp` is seconds-since-epoch (UTC) as ℚ;
`ttl_seconds` is the integer TTL field. -/
structure HelpRequest where
  id : String
  timestamp : ℚ
  ttl_seconds : ℤ := 3600
  location : GeoLocation
  request_type : RequestType
  priority : RequestPriority := RequestPriority.medium
  title : String
  description : String
  contact_info : Option String := none
  sender_id : String
  hop_count : ℕ := 0
  signature : Option String := none

/-- models.py `HelpRequest.is_expired` (lines 141-144):
`(utcnow() - self.timestamp).total_seconds() > self.ttl_seconds`. -/
def HelpRequest.is_expired (m : HelpRequest) (now : ℚ) : Bool :=
  decide (now - m.timestamp > (m.ttl_seconds : ℚ))

/-- models.py `HelpRequest.increment_hop`: copy with `hop_count + 1`. -/
def HelpRequest.increment_hop (m : HelpRequest) : HelpRequest :=
  { m with hop_count := m.hop_count + 1 }

/-- storage.py `MessageStorage` state: `_messages` is a dict keyed by message
id (insertion-ordered association list), `_seen_ids` a set of ids (insertion
order), plus the capacity bound and the two statistics counters. -/
structure MessageStorage where
  messages : List (String × HelpRequest)
  seen_ids : List String
  max_messages : ℕ := 10000
  total_received : ℕ := 0
  duplicates_rejected : ℕ := 0

/-- storage.py `MessageStorage._evict_oldest` (lines 208-223): sort the dict
items by timestamp ascending, delete the first `max(1, n / 10)` keys. -/
def MessageStorage.evict_oldest (s : MessageStorage) : MessageStorage :=
  if s.messages.isEmpty then s
  else
    let sorted_msgs := s.messages.mergeSort fun a b => decide (a.2.timestamp ≤ b.2.timestamp)
    let evict_count := max 1 (sorted_msgs.length / 10)
    let evicted_ids := (sorted_msgs.take evict_count).map (fun kv => kv.1)
    { s with messages := s.messages.filter fun kv => decide (kv.1 ∉ evicted_ids) }

/-- storage.py `MessageStorage.store` (lines 63-96): reject a duplicate id
(counting it) or an expired message; otherwise evict if at capacity, then
insert into the retained map and the seen set and bump `total_received`. -/
def MessageStorage.store (s : MessageStorage) (now : ℚ) (message : HelpRequest) :
    MessageStorage × Bool :=
  if message.id ∈ s.seen_ids then
    ({ s with duplicates_rejected := s.duplicates_rejected + 1 }, false)
  else if message.is_expired now then
    (s, false)
  else
    let s1 := if s.messages.length ≥ s.max_messages then s.evict_oldest else s
    ({ s1 with
        messages := s1.messages ++ [(message.id, message)],
        seen_ids := s1.seen_ids ++ [message.id],
        total_received := s1.total_received + 1 }, true)

/-- storage.py `MessageStorage.has_seen` (lines 98-106). -/
def MessageStorage.has_seen (s : MessageStorage) (message_id : String) : Bool :=
  decide (message_id ∈ s.seen_ids)

/-- storage.py `MessageStorage.get` (lines 108-111): plain dict lookup,
no expiry filtering. -/
def MessageStorage.get (s : MessageStorage) (message_id : String) : Option HelpRequest :=
  s.messages.lookup message_id

/-- storage.py `MessageStorage.get_all` (lines 113-129): optionally filter
out expired messages, then sort by timestamp descending (stable). -/
def MessageStorage.get_all (s : MessageStorage) (now : ℚ) (include_expired : Bool) :
    List HelpRequest :=
  let msgs :=
    if include_expired then s.messages.map (fun kv => kv.2)
    else (s.messages.map (fun kv => kv.2)).filter fun m => !(m.is_expired now)
  msgs.mergeSort fun a b => decide (b.timestamp ≤ a.timestamp)

/-- storage.py `MessageStorage.get_by_type` (lines 131-137). -/
def MessageStorage.get_by_type (s : MessageStorage) (now : ℚ) (request_type : RequestType) :
    List HelpRequest :=
  (s.messages.map (fun kv => kv.2)).filter fun m =>
    decide (m.request_type = request_type) && !(m.is_expired now)

/-- storage.py `haversine_distance` (lines 159-172), the helper inlined in
`get_nearby`: Earth radius 6371 km, degrees converted to radians
(`math.radians x = x * π / 180`), standard formula. -/
noncomputable def haversine_distance (loc1 loc2 : GeoLocation) : ℝ :=
  let R : ℝ := 6371
  let lat1 := loc1.latitude * Real.pi / 180
  let lon1 := loc1.longitude * Real.pi / 180
  let lat2 := loc2.latitude * Real.pi / 180
  let lon2 := loc2.longitude * Real.pi / 180
  let dlat := lat2 - lat1
  let dlon := lon2 - lon1
  let a := Real.sin (dlat / 2) ^ 2 +
    Real.cos lat1 * Real.cos lat2 * Real.sin (dlon / 2) ^ 2
  let c := 2 * Real.arcsin (Real.sqrt a)
  R * c

open Classical in
/-- storage.py `MessageStorage.get_nearby` (lines 139-185): collect the
non-expired messages whose haversine distance from `location` is at most
`radius_km`, paired with that distance, sort the pairs by distance ascending,
and return the messages. -/
noncomputable def MessageStorage.get_nearby (s : MessageStorage) (now : ℚ)
    (location : GeoLocation) (radius_km : ℝ) : List HelpRequest :=
  let nearby := (s.messages.map (fun kv => kv.2)).filterMap fun msg =>
    if msg.is_expired now then none
    else
      let distance := haversine_distance location msg.location
      if distance ≤ radius_km then some (distance, msg) else none
  (nearby.mergeSort fun a b => decide (a.1 ≤ b.1)).map fun dm => dm.2

/-- storage.py `MessageStorage.cleanup_expired` (lines 187-206): collect the
ids of expired retained messages, delete those keys, return how many. -/
def MessageStorage.cleanup_expired (s : MessageStorage) (now : ℚ) :
    MessageStorage × ℕ :=
  let expired_ids := (s.messages.filter (fun kv => kv.2.is_expired now)).map (fun kv => kv.1)
  ({ s with messages := s.messages.filter fun kv => decide (kv.1 ∉ expired_ids) },
    expired_ids.length)

/-- A sample location used by concrete instances below. -/
def loc0 : GeoLocation := { latitude := (41 : ℝ), longitude := (28 : ℝ) }

/-- A freshly constructed storage, as `MessageStorage(max_messages=10000)`. -/
def emptyStorage : MessageStorage := { messages := [], seen_ids := [] }


/-- A sample help request with a given id and timestamp, TTL 3600. -/
def sampleMsg (i : String) (ts : ℚ) : HelpRequest :=
  { id := i, timestamp := ts, location := loc0, request_type := RequestType.medical,
    title := "need help now", description := "ten characters long", sender_id := "origin" }

/-- A storage holding one message whose TTL (3600 s) has already elapsed at
`now = 4000`: the state reached by storing `sampleMsg "req-1" 0` at time 0. -/
def expiredStore : MessageStorage :=
  { messages := [("req-1", sampleMsg "req-1" 0)], seen_ids := ["req-1"],
    total_received := 1 }

/-! The gossip layer of p2p.py, parametrised by the payload type `α`
(payloads are JSON dicts in the source and are opaque to the node). -/

/-- models.py `PeerInfo`. -/
structure PeerInfo where
  node_id : String
  multiaddr : String
  last_seen : ℚ
  is_active : Bool := true
  latency_ms : Option ℚ := none

/-- p2p.py `GossipMessage` (lines 47-74): the wire envelope. -/
structure GossipMessage (α : Type) where
  topic : String
  payload : α
  sender_id : String
  message_id : String
  timestamp : ℚ

/-- p2p.py `P2PNode` mutable state (lines 88-123): `_peers` and
`_peer_writers` are dicts (writers are opaque handles, so only their peer-id
keys are modelled), `_connected_peers` and `_seen_messages` are sets in
insertion order, `_subscriptions` is flattened to one topic entry per
registered handler (handlers are opaque callables). -/
structure P2PNode (α : Type) where
  node_id : String
  peers : List (String × PeerInfo)
  connected_peers : List String
  peer_writers : List String
  subscriptions : List String
  seen_messages : List String
  messages_sent : ℕ
  messages_received : ℕ

/-- A fresh node (`P2PNode.__init__`): empty registry, no subscriptions,
empty seen set, zeroed counters. -/
def P2PNode.init (α : Type) (node_id : String) : P2PNode α :=
  { node_id := node_id, peers := [], connected_peers := [], peer_writers := [],
    subscriptions := [], seen_messages := [], messages_sent := 0,
    messages_received := 0 }

/-- p2p.py `P2PNode.subscribe` (lines 307-312): append a handler under the
topic. -/
def P2PNode.subscribe (s : P2PNode α) (topic : String) : P2PNode α :=
  { s with subscriptions := s.subscriptions ++ [topic] }

/-- The outcome of handling one inbound envelope: the successor node state,
the payloads handed to local handlers (one entry per handler invocation, in
order), and the `(peer_id, envelope)` pairs written out to peers. -/
structure IngestResult (α : Type) where
  state : P2PNode α
  delivered : List α
  forwarded : List (String × GossipMessage α)

/-- p2p.py `P2PNode._handle_incoming_message` (lines 359-393): return
silently on a seen `message_id`; otherwise add it to the seen set, trim the
seen set to 5000 entries when it exceeds 10000 (`set(list(...)[-5000:])`,
modelled as the insertion-order suffix; the program keeps an arbitrary 5000,
see the module comment), bump
`messages_received`, refresh `last_seen` of a known sender, deliver the
payload to every handler subscribed to the topic, and forward the envelope
verbatim to every peer writer whose key differs from `message.sender_id`. -/
def P2PNode.handle_incoming_message (s : P2PNode α) (now : ℚ)
    (message : GossipMessage α) : IngestResult α :=
  if message.message_id ∈ s.seen_messages then
    ⟨s, [], []⟩
  else
    let seen1 := s.seen_messages ++ [message.message_id]
    let seen2 := if seen1.length > 10000 then seen1.drop (seen1.length - 5000) else seen1
    let peers1 := s.peers.map fun kv =>
      if kv.1 = message.sender_id then (kv.1, { kv.2 with last_seen := now }) else kv
    let delivered := (s.subscriptions.filter fun t => decide (t = message.topic)).map
      fun _ => message.payload
    let forwarded := (s.peer_writers.filter fun p => decide (p ≠ message.sender_id)).map
      fun p => (p, message)
    ⟨{ s with
        seen_messages := seen2
        peers := peers1
        messages_received := s.messages_received + 1 }, delivered, forwarded⟩

/-- p2p.py `_read_from_peer` (lines 270-292) and `_handle_peer_connection`
(lines 186-224): both decode a frame and call `_handle_incoming_message` with
the message only — the id of the connection the frame arrived on
(`source_peer_id`) is not passed along and plays no role. -/
def P2PNode.read_frame_from_peer (s : P2PNode α) (source_peer_id : String)
    (now : ℚ) (message : GossipMessage α) : IngestResult α :=
  s.handle_incoming_message now message

/-- p2p.py `P2PNode.publish` (lines 314-337): build the envelope with
`sender_id = self.identity.node_id` and
`message_id = payload.get("id", "<node_id>-<now>")` (`payload_id` models
`payload.get("id")`), add the id to the seen set, broadcast to every peer
writer, bump `messages_sent`.  Returns the new state, the envelope, and the
`(peer_id, envelope)` broadcast list. -/
def P2PNode.publish (s : P2PNode α) (now : ℚ) (topic : String) (payload : α)
    (payload_id : Option String) :
    P2PNode α × GossipMessage α × List (String × GossipMessage α) :=
  let message : GossipMessage α :=
    { topic := topic, payload := payload, sender_id := s.node_id,
      message_id := payload_id.getD (s.node_id ++ "-" ++ toString now),
      timestamp := now }
  let seen1 :=
    if message.message_id ∈ s.seen_messages then s.seen_messages
    else s.seen_messages ++ [message.message_id]
  ({ s with seen_messages := seen1, messages_sent := s.messages_sent + 1 },
    message,
    s.peer_writers.map fun p => (p, message))

/-- main.py `create_message_handler` (lines 124-154): the single handler
main.py subscribes on `disaster/help-requests`; it increments the hop count
and stores the message in the global `message_storage` (the returned flag is
ignored). -/
def handle_help_request (stor : MessageStorage) (now : ℚ) (payload : HelpRequest) :
    MessageStorage :=
  (stor.store now payload.increment_hop).1

/-- The process state wired up by main.py `lifespan`: the global `p2p_node`
(whose only subscription is `handle_help_request` on
`disaster/help-requests`) together with the global `message_storage`. -/
structure SystemState where
  node : P2PNode HelpRequest
  storage : MessageStorage

/-- One inbound envelope through the wired system: the node ingests it, and
each payload delivered to the (sole, help-request) handler is stored. -/
def system_ingest (sys : SystemState) (now : ℚ) (message : GossipMessage HelpRequest) :
    SystemState × IngestResult HelpRequest :=
  let r := sys.node.handle_incoming_message now message
  ({ node := r.state,
     storage := r.delivered.foldl (fun st p => handle_help_request st now p) sys.storage },
   r)

/-- p2p.py `GossipTopic.HELP_REQUESTS`. -/
def helpRequestsTopic : String := "disaster/help-requests"

/-- A concrete node used to exercise the inbound path: a fresh node that has
never dialled anyone (empty registry), as the TCP server side sees it. -/
def c9node : P2PNode ℕ := P2PNode.init ℕ "N"

/-- The first envelope arriving from a so-far-unknown source node "X". -/
def c9msg : GossipMessage ℕ :=
  { topic := helpRequestsTopic, payload := 0, sender_id := "X",
    message_id := "m1", timestamp := 0 }

/-- A node connected to peers "B" and "C" (outbound writers registered for
both), with an empty seen set. -/
def c3node : P2PNode ℕ :=
  { node_id := "N",
    peers := [("B", { node_id := "B", multiaddr := "b:4001", last_seen := 0 }),
              ("C", { node_id := "C", multiaddr := "c:4001", last_seen := 0 })],
    connected_peers := ["B", "C"], peer_writers := ["B", "C"],
    subscriptions := [], seen_messages := [], messages_sent := 0,
    messages_received := 0 }

/-- A relayed envelope: originated by "A" (`sender_id = "A"` is preserved by
verbatim forwarding) but arriving over the connection to peer "B". -/
def c3msg : GossipMessage ℕ :=
  { topic := helpRequestsTopic, payload := 7, sender_id := "A",
    message_id := "m-relay", timestamp := 0 }

/-- The wired system of C4's counterexample: the node has already seen the
envelope id "m-dup", main.py's handler is subscribed on the help-request
topic, and the storage has rejected no duplicate yet. -/
def c4sys : SystemState :=
  { node :=
      { node_id := "N"
        peers := []
        connected_peers := []
        peer_writers := []
        subscriptions := [helpRequestsTopic]
        seen_messages := ["m-dup"]
        messages_sent := 0
        messages_received := 0 }
    storage := emptyStorage }

/-- The duplicate envelope for C4. -/
def c4msg : GossipMessage HelpRequest :=
  { topic := helpRequestsTopic, payload := sampleMsg "m-dup" 0,
    sender_id := "X", message_id := "m-dup", timestamp := 0 }

/-- Distinct message ids for long runs: `mkId n` is the string of `n + 1`
copies of 'a' (injective in `n`, and never equal to the id "b"). -/
def mkId (n : ℕ) : String := String.mk (List.replicate (n + 1) 'a')

/-- A run of inbound envelopes processed one after the other
(`_handle_incoming_message` per frame). -/
def ingest_run (s : P2PNode α) (now : ℚ) (msgs : List (GossipMessage α)) : P2PNode α :=
  msgs.foldl (fun st m => (st.handle_incoming_message now m).state) s

/-- The envelopes of a flood of `k` distinct foreign messages (ids
`mkId 0 .. mkId (k-1)`). -/
def floodRun (k : ℕ) : List (GossipMessage ℕ) :=
  (List.range k).map fun i =>
    { topic := "disaster/heartbeat", payload := 0, sender_id := "S",
      message_id := mkId i, timestamp := 0 }

/-- C5's starting node: fresh, with one handler subscribed on the
help-request topic. -/
def c5node0 : P2PNode ℕ :=
  { node_id := "N"
    peers := []
    connected_peers := []
    peer_writers := []
    subscriptions := [helpRequestsTopic]
    seen_messages := []
    messages_sent := 0
    messages_received := 0 }

/-- C5's node right after publishing a payload whose dict carries id "b". -/
def c5pub : P2PNode ℕ := (c5node0.publish 0 helpRequestsTopic 42 (some "b")).1

/-- An envelope carrying the previously published message_id "b", arriving
back later. -/
def c5echo : GossipMessage ℕ :=
  { topic := helpRequestsTopic, payload := 99, sender_id := "Z",
    message_id := "b", timestamp := 1 }

/-- A node whose seen set already holds 10000 ids (the state reached from a
fresh node by ingesting `floodRun 10000`). -/
def c8big : P2PNode ℕ :=
  { node_id := "N"
    peers := []
    connected_peers := []
    peer_writers := []
    subscriptions := []
    seen_messages := (List.range 10000).map mkId
    messages_sent := 0
    messages_received := 10000 }

/-- The k-th message of the capacity scenario: id `mkId k`, timestamp `k`
(so later messages are newer), TTL 3600. -/
def msgC2 (k : ℕ) : HelpRequest := sampleMsg (mkId k) (k : ℚ)

/-- `MessageStorage(max_messages=100)`, the spec's capacity scenario. -/
def capStore : MessageStorage :=
  { messages := [], seen_ids := [], max_messages := 100 }

/-- Storing a list of messages one after the other. -/
def store_run (s : MessageStorage) (now : ℚ) (msgs : List HelpRequest) :
    MessageStorage :=
  msgs.foldl (fun st m => (st.store now m).1) s

/-- The first `k` capacity-scenario messages, oldest (smallest timestamp)
first. -/
def c2run (k : ℕ) : List HelpRequest := (List.range k).map msgC2

/-- A one-slot storage already at capacity. -/
def c2small : MessageStorage :=
  { messages := [("q", sampleMsg "q" 0)], seen_ids := ["q"], max_messages := 1 }

/-- C1 --- `store` returns `false` iff the id was already seen or the message
is expired; otherwise it inserts the message into the retained map and its id
into the seen set and returns `true`; storing the same message twice returns
`true` then `false`, with `has_seen` true after both calls. -/
theorem C1_store_dedup_expiry (s : MessageStorage) (now now2 : ℚ) (m : HelpRequest) :
    ((s.store now m).2 = false ↔ (m.id ∈ s.seen_ids ∨ m.is_expired now = true)) ∧
    (m.id ∉ s.seen_ids → m.is_expired now = false →
      (s.store now m).2 = true ∧
      (m.id, m) ∈ (s.store now m).1.messages ∧
      m.id ∈ (s.store now m).1.seen_ids ∧
      ((s.store now m).1.store now2 m).2 = false ∧
      (s.store now m).1.has_seen m.id = true ∧
      (((s.store now m).1.store now2 m).1.has_seen m.id = true)) := by
  constructor
  · unfold MessageStorage.store
    by_cases hdup : m.id ∈ s.seen_ids
    · simp [hdup]
    · by_cases hexp : m.is_expired now = true
      · simp [hdup, hexp]
      · simp [hdup, hexp]
  · intro hdup hexp
    have hstore : (s.store now m) =
        (let s1 := if s.messages.length ≥ s.max_messages then s.evict_oldest else s
         ({ s1 with
            messages := s1.messages ++ [(m.id, m)],
            seen_ids := s1.seen_ids ++ [m.id],
            total_received := s1.total_received + 1 }, true)) := by
      unfold MessageStorage.store
      simp [hdup, hexp]
    refine ⟨by rw [hstore], ?_, ?_, ?_, ?_, ?_⟩
    · rw [hstore]; simp
    · rw [hstore]; simp
    · rw [hstore]
      unfold MessageStorage.store
      simp
    · rw [hstore]
      unfold MessageStorage.has_seen
      simp
    · rw [hstore]
      unfold MessageStorage.store MessageStorage.has_seen
      simp
theorem C1_store_dedup_expiry_witness :
    (sampleMsg "req-1" 0).id ∉ emptyStorage.seen_ids ∧
    (sampleMsg "req-1" 0).is_expired 0 = false ∧
    (emptyStorage.store 0 (sampleMsg "req-1" 0)).2 = true ∧
    ((emptyStorage.store 0 (sampleMsg "req-1" 0)).1.store 5 (sampleMsg "req-1" 0)).2 = false ∧
    (emptyStorage.store 0 (sampleMsg "req-1" 0)).1.has_seen (sampleMsg "req-1" 0).id = true ∧
    (((emptyStorage.store 0 (sampleMsg "req-1" 0)).1.store 5
        (sampleMsg "req-1" 0)).1.has_seen (sampleMsg "req-1" 0).id = true) := by
  have h1 : (sampleMsg "req-1" 0).id ∉ emptyStorage.seen_ids := by
    simp [emptyStorage, sampleMsg]
  have h2 : (sampleMsg "req-1" 0).is_expired 0 = false := by
    simp [HelpRequest.is_expired, sampleMsg]
  have h := (C1_store_dedup_expiry emptyStorage 0 5 (sampleMsg "req-1" 0)).2 h1 h2
  exact ⟨h1, h2, h.1, h.2.2.2.1, h.2.2.2.2.1, h.2.2.2.2.2⟩

/-! Helper lemmas about association lists with distinct keys (the invariant a
Python dict provides by construction). -/

/-- `lookup` finds the entry of a key that occurs in a list with distinct keys. -/
theorem lookup_eq_some_of_mem {β : Type} {l : List (String × β)} {k : String} {v : β}
    (hnd : (l.map Prod.fst).Nodup) (hmem : (k, v) ∈ l) : l.lookup k = some v := by
  induction l with
  | nil => cases hmem
  | cons a t ih =>
    simp only [List.map_cons, List.nodup_cons] at hnd
    rcases List.mem_cons.1 hmem with h | h
    · rw [← h]
      simp [List.lookup]
    · have hne : k ≠ a.1 := by
        intro hk
        exact hnd.1 (hk ▸ List.mem_map_of_mem Prod.fst h)
      obtain ⟨a1, a2⟩ := a
      have hbeq : (k == a1) = false := by simpa using hne
      simp only [List.lookup, hbeq]
      exact ih hnd.2 h

/-- Two entries of a list with distinct keys that share a key are equal. -/
theorem eq_of_mem_nodup_keys {β : Type} {l : List (String × β)}
    (hnd : (l.map Prod.fst).Nodup) {kv kw : String × β}
    (h1 : kv ∈ l) (h2 : kw ∈ l) (hk : kv.1 = kw.1) : kv = kw := by
  induction l with
  | nil => cases h1
  | cons a t ih =>
    simp only [List.map_cons, List.nodup_cons] at hnd
    rcases List.mem_cons.1 h1 with rfl | h1'
    · rcases List.mem_cons.1 h2 with rfl | h2'
      · rfl
      · exact absurd (hk ▸ List.mem_map_of_mem Prod.fst h2') hnd.1
    · rcases List.mem_cons.1 h2 with rfl | h2'
      · exact absurd (hk ▸ List.mem_map_of_mem Prod.fst h1') hnd.1
      · exact ih hnd.2 h1' h2'

/-- C7 --- `cleanup_expired` removes exactly the expired retained messages and
returns their count; the seen set, both statistics counters and the capacity
are untouched. -/
theorem C7_cleanup_removes_exactly_expired (s : MessageStorage) (now : ℚ)
    (hnd : (s.messages.map Prod.fst).Nodup) :
    (s.cleanup_expired now).1.messages
        = s.messages.filter (fun kv => !(kv.2.is_expired now)) ∧
    (s.cleanup_expired now).2
        = (s.messages.filter (fun kv => kv.2.is_expired now)).length ∧
    (s.cleanup_expired now).1.seen_ids = s.seen_ids ∧
    (s.cleanup_expired now).1.total_received = s.total_received ∧
    (s.cleanup_expired now).1.duplicates_rejected = s.duplicates_rejected ∧
    (s.cleanup_expired now).1.max_messages = s.max_messages := by
  refine ⟨?_, by simp [MessageStorage.cleanup_expired], rfl, rfl, rfl, rfl⟩
  show s.messages.filter _ = s.messages.filter _
  apply List.filter_congr
  intro kv hkv
  by_cases hexp : kv.2.is_expired now = true
  · have hin : kv.1 ∈ (s.messages.filter (fun kv => kv.2.is_expired now)).map
        (fun kv => kv.1) :=
      List.mem_map_of_mem _ (List.mem_filter.2 ⟨hkv, hexp⟩)
    simp [hin, hexp]
  · have hnotin : kv.1 ∉ (s.messages.filter (fun kv => kv.2.is_expired now)).map
        (fun kv => kv.1) := by
      intro hin
      rcases List.mem_map.1 hin with ⟨kw, hkw, hkeq⟩
      have hkwmem := (List.mem_filter.1 hkw).1
      have hkwexp := (List.mem_filter.1 hkw).2
      have : kw = kv := eq_of_mem_nodup_keys hnd hkwmem hkv hkeq
      rw [this] at hkwexp
      exact hexp hkwexp
    simp [hnotin, hexp]
theorem C7_cleanup_removes_exactly_expired_witness :
    ((expiredStore.messages.map Prod.fst).Nodup) ∧
    (expiredStore.cleanup_expired 4000).1.messages
        = expiredStore.messages.filter (fun kv => !(kv.2.is_expired 4000)) ∧
    (expiredStore.cleanup_expired 4000).2
        = (expiredStore.messages.filter (fun kv => kv.2.is_expired 4000)).length ∧
    (expiredStore.cleanup_expired 4000).1.seen_ids = expiredStore.seen_ids := by
  have hnd : (expiredStore.messages.map Prod.fst).Nodup := by
    simp [expiredStore]
  have h := C7_cleanup_removes_exactly_expired expiredStore 4000 hnd
  exact ⟨hnd, h.1, h.2.1, h.2.2.1⟩

/-- C10 --- `get` does not filter by expiry: an expired message still present
in the retained map is returned by `get`, while `get_all` (without
`include_expired`), `get_by_type` and `get_nearby` all exclude it. -/
theorem C10_get_returns_expired (s : MessageStorage) (now : ℚ) (mid : String)
    (m : HelpRequest) (center : GeoLocation) (radius : ℝ)
    (hnd : (s.messages.map Prod.fst).Nodup) (hmem : (mid, m) ∈ s.messages)
    (hexp : m.is_expired now = true) :
    s.get mid = some m ∧
    m ∉ s.get_all now false ∧
    m ∉ s.get_by_type now m.request_type ∧
    m ∉ s.get_nearby now center radius := by
  refine ⟨lookup_eq_some_of_mem hnd hmem, ?_, ?_, ?_⟩
  · intro hin
    simp only [MessageStorage.get_all, if_neg (by simp : ¬ (false = true))] at hin
    rw [List.mem_mergeSort] at hin
    have h2 := (List.mem_filter.1 hin).2
    rw [hexp] at h2
    simp at h2
  · intro hin
    have h2 := (List.mem_filter.1 hin).2
    rw [hexp] at h2
    simp at h2
  · intro hin
    simp only [MessageStorage.get_nearby] at hin
    rw [List.mem_map] at hin
    rcases hin with ⟨p, hp, hpm⟩
    rw [List.mem_mergeSort] at hp
    rcases List.mem_filterMap.1 hp with ⟨msg, _hmsg, hf⟩
    by_cases h1 : msg.is_expired now = true
    · rw [if_pos h1] at hf
      cases hf
    · rw [if_neg h1] at hf
      by_cases h2 : haversine_distance center msg.location ≤ radius
      · rw [if_pos h2] at hf
        have hmsgm : msg = m := by
          have := Option.some.inj hf
          rw [← this] at hpm
          exact hpm
        rw [hmsgm] at h1
        exact h1 hexp
      · rw [if_neg h2] at hf
        cases hf
theorem C10_get_returns_expired_witness :
    ((expiredStore.messages.map Prod.fst).Nodup) ∧
    (("req-1", sampleMsg "req-1" 0) ∈ expiredStore.messages) ∧
    ((sampleMsg "req-1" 0).is_expired 4000 = true) ∧
    expiredStore.get "req-1" = some (sampleMsg "req-1" 0) ∧
    (sampleMsg "req-1" 0) ∉ expiredStore.get_all 4000 false ∧
    (sampleMsg "req-1" 0) ∉ expiredStore.get_by_type 4000 (sampleMsg "req-1" 0).request_type ∧
    (sampleMsg "req-1" 0) ∉ expiredStore.get_nearby 4000 loc0 10 := by
  have hnd : (expiredStore.messages.map Prod.fst).Nodup := by
    simp [expiredStore]
  have hmem : ("req-1", sampleMsg "req-1" 0) ∈ expiredStore.messages := by
    simp [expiredStore]
  have hexp : (sampleMsg "req-1" 0).is_expired 4000 = true := by
    norm_num [HelpRequest.is_expired, sampleMsg]
  have h := C10_get_returns_expired expiredStore 4000 "req-1" (sampleMsg "req-1" 0)
    loc0 10 hnd hmem hexp
  exact ⟨hnd, hmem, hexp, h.1, h.2.1, h.2.2.1, h.2.2.2⟩

/-! Frame lemmas for `_handle_incoming_message`: it never touches the
subscription table, the writer registry, or the set of peer keys. -/

theorem handle_incoming_subscriptions (s : P2PNode α) (now : ℚ)
    (msg : GossipMessage α) :
    (s.handle_incoming_message now msg).state.subscriptions = s.subscriptions := by
  unfold P2PNode.handle_incoming_message
  split <;> rfl

theorem handle_incoming_peer_writers (s : P2PNode α) (now : ℚ)
    (msg : GossipMessage α) :
    (s.handle_incoming_message now msg).state.peer_writers = s.peer_writers := by
  unfold P2PNode.handle_incoming_message
  split <;> rfl

theorem handle_incoming_node_id (s : P2PNode α) (now : ℚ)
    (msg : GossipMessage α) :
    (s.handle_incoming_message now msg).state.node_id = s.node_id := by
  unfold P2PNode.handle_incoming_message
  split <;> rfl

theorem handle_incoming_peer_keys (s : P2PNode α) (now : ℚ)
    (msg : GossipMessage α) :
    (s.handle_incoming_message now msg).state.peers.map Prod.fst
      = s.peers.map Prod.fst := by
  unfold P2PNode.handle_incoming_message
  split
  · rfl
  · show (s.peers.map _).map Prod.fst = _
    rw [List.map_map]
    apply List.map_congr_left
    intro kv _
    show Prod.fst (if kv.1 = msg.sender_id then _ else kv) = kv.1
    split <;> rfl

/-- C9 counterexample --- after the first frame from the new source "X", the
registry still has no PeerInfo for "X" and no outbound writer is registered:
the connection is not adopted. -/
theorem C9_counterexample :
    "X" = c9msg.sender_id ∧
    "X" ∉ ((c9node.handle_incoming_message 0 c9msg).state.peers.map Prod.fst) ∧
    "X" ∉ (c9node.handle_incoming_message 0 c9msg).state.peer_writers := by
  refine ⟨rfl, ?_, ?_⟩ <;>
    simp [c9node, c9msg, P2PNode.init, P2PNode.handle_incoming_message,
      helpRequestsTopic]

/-- C9 amended --- receiving a frame never adopts the connection: the inbound
path leaves the writer registry unchanged and the set of registered peer ids
unchanged; a frame from a sender that is not already registered leaves the
PeerRegistry entirely unchanged (a known sender merely has `last_seen`
refreshed).  PeerInfo entries and writers are created only by the outbound
`_connect_to_peer` path. -/
theorem C9_no_adoption_on_ingest (s : P2PNode α) (now : ℚ)
    (msg : GossipMessage α) :
    (s.handle_incoming_message now msg).state.peer_writers = s.peer_writers ∧
    (s.handle_incoming_message now msg).state.peers.map Prod.fst
      = s.peers.map Prod.fst ∧
    (msg.sender_id ∉ s.peers.map Prod.fst →
      (s.handle_incoming_message now msg).state.peers = s.peers) := by
  refine ⟨handle_incoming_peer_writers s now msg,
    handle_incoming_peer_keys s now msg, ?_⟩
  intro hnew
  unfold P2PNode.handle_incoming_message
  split
  · rfl
  · show s.peers.map _ = s.peers
    rw [show s.peers = s.peers.map id from (List.map_id s.peers).symm]
    rw [List.map_map]
    apply List.map_congr_left
    intro kv hkv
    have : kv.1 ≠ msg.sender_id := by
      intro heq
      exact hnew (heq ▸ List.mem_map_of_mem Prod.fst hkv)
    simp [this]

theorem C9_no_adoption_on_ingest_witness :
    (c9msg.sender_id ∉ c9node.peers.map Prod.fst) ∧
    (c9node.handle_incoming_message 0 c9msg).state.peer_writers = c9node.peer_writers ∧
    (c9node.handle_incoming_message 0 c9msg).state.peers = c9node.peers := by
  have h0 : c9msg.sender_id ∉ c9node.peers.map Prod.fst := by
    simp [c9node, c9msg, P2PNode.init]
  have h := C9_no_adoption_on_ingest c9node 0 c9msg
  exact ⟨h0, h.1, h.2.2 h0⟩

/-- C3 counterexample --- the envelope arrives from peer "B" yet is forwarded
back to "B": the exclusion is by the envelope's `sender_id` ("A"), not by the
connection the envelope arrived from, so "except the source peer the envelope
arrived from" fails on relayed envelopes. -/
theorem C3_counterexample :
    "B" ≠ c3msg.sender_id ∧
    ("B", c3msg) ∈ (c3node.read_frame_from_peer "B" 0 c3msg).forwarded := by
  constructor
  · simp [c3msg]
  · simp [c3node, c3msg, P2PNode.read_frame_from_peer,
      P2PNode.handle_incoming_message, helpRequestsTopic]

/-- C3 amended --- a not-yet-seen envelope is forwarded verbatim (same
`sender_id`, `message_id` and payload: the very same envelope value) to
exactly the peers in the writer registry whose id differs from the envelope's
`sender_id`; the connection the envelope arrived from is not otherwise
excluded, and is forwarded to whenever its peer id differs from `sender_id`. -/
theorem C3_forward_verbatim_except_sender (s : P2PNode α) (source_peer_id : String)
    (now : ℚ) (msg : GossipMessage α) (h : msg.message_id ∉ s.seen_messages) :
    ∀ p e, (p, e) ∈ (s.read_frame_from_peer source_peer_id now msg).forwarded ↔
      (p ∈ s.peer_writers ∧ p ≠ msg.sender_id ∧ e = msg) := by
  intro p e
  unfold P2PNode.read_frame_from_peer P2PNode.handle_incoming_message
  rw [if_neg h]
  show (p, e) ∈ (s.peer_writers.filter _).map _ ↔ _
  rw [List.mem_map]
  constructor
  · rintro ⟨q, hq, hqe⟩
    obtain ⟨hq1, hq2⟩ := List.mem_filter.1 hq
    cases hqe
    exact ⟨hq1, by simpa using hq2, rfl⟩
  · rintro ⟨hp, hne, rfl⟩
    exact ⟨p, List.mem_filter.2 ⟨hp, by simpa using hne⟩, rfl⟩

theorem C3_forward_verbatim_except_sender_witness :
    (c3msg.message_id ∉ c3node.seen_messages) ∧
    (("C", c3msg) ∈ (c3node.read_frame_from_peer "B" 0 c3msg).forwarded ↔
      ("C" ∈ c3node.peer_writers ∧ "C" ≠ c3msg.sender_id ∧ c3msg = c3msg)) := by
  have h : c3msg.message_id ∉ c3node.seen_messages := by
    simp [c3msg, c3node]
  exact ⟨h, C3_forward_verbatim_except_sender c3node "B" 0 c3msg h "C" c3msg⟩

/-- C4 counterexample --- ingesting an envelope whose id is already in the
node's seen set leaves `duplicates_rejected` untouched (it stays 0), refuting
the claimed increment by one: the duplicate path returns before any counter
or handler is reached. -/
theorem C4_counterexample :
    (system_ingest c4sys 0 c4msg).1.storage.duplicates_rejected
      ≠ c4sys.storage.duplicates_rejected + 1 := by
  simp [system_ingest, c4sys, c4msg, P2PNode.handle_incoming_message,
    emptyStorage]

/-- C4 amended --- ingesting an envelope whose `message_id` is already in the
node's seen set is a silent ignore: no handler fires, nothing is forwarded,
and the whole system state — node and storage, every counter included, in
particular `duplicates_rejected` — is unchanged.  (`duplicates_rejected` is
incremented only inside `MessageStorage.store`, which the duplicate path
never reaches.) -/
theorem C4_duplicate_silent_ignore (sys : SystemState) (now : ℚ)
    (msg : GossipMessage HelpRequest) (h : msg.message_id ∈ sys.node.seen_messages) :
    (system_ingest sys now msg).1.node = sys.node ∧
    (system_ingest sys now msg).1.storage = sys.storage ∧
    (system_ingest sys now msg).1.storage.duplicates_rejected
      = sys.storage.duplicates_rejected ∧
    (system_ingest sys now msg).2.delivered = [] ∧
    (system_ingest sys now msg).2.forwarded = [] := by
  unfold system_ingest P2PNode.handle_incoming_message
  rw [if_pos h]
  exact ⟨rfl, rfl, rfl, rfl, rfl⟩

theorem C4_duplicate_silent_ignore_witness :
    (c4msg.message_id ∈ c4sys.node.seen_messages) ∧
    (system_ingest c4sys 0 c4msg).1.node = c4sys.node ∧
    (system_ingest c4sys 0 c4msg).1.storage = c4sys.storage ∧
    (system_ingest c4sys 0 c4msg).2.delivered = [] := by
  have h : c4msg.message_id ∈ c4sys.node.seen_messages := by
    simp [c4msg, c4sys]
  have hh := C4_duplicate_silent_ignore c4sys 0 c4msg h
  exact ⟨h, hh.1, hh.2.1, hh.2.2.2.1⟩

/-! Lemmas about the seen-set dynamics of `_handle_incoming_message` and
`publish`. -/

theorem mkId_injective : Function.Injective mkId := by
  intro m n h
  have h2 : List.replicate (m + 1) 'a' = List.replicate (n + 1) 'a' :=
    congrArg String.data h
  have h3 := congrArg List.length h2
  simpa using h3

theorem mkId_ne_b (n : ℕ) : mkId n ≠ "b" := by
  intro h
  have h2 : List.replicate (n + 1) 'a' = ['b'] := congrArg String.data h
  rw [List.replicate_succ] at h2
  simp at h2

/-- A fresh id is appended to the seen set; with at most 10000 entries
afterwards, no trim happens. -/
theorem handle_incoming_seen_no_trim (s : P2PNode α) (now : ℚ)
    (msg : GossipMessage α) (h : msg.message_id ∉ s.seen_messages)
    (hlen : s.seen_messages.length + 1 ≤ 10000) :
    (s.handle_incoming_message now msg).state.seen_messages
      = s.seen_messages ++ [msg.message_id] := by
  unfold P2PNode.handle_incoming_message
  rw [if_neg h]
  show (if (s.seen_messages ++ [msg.message_id]).length > 10000
      then (s.seen_messages ++ [msg.message_id]).drop
        ((s.seen_messages ++ [msg.message_id]).length - 5000)
      else s.seen_messages ++ [msg.message_id]) = s.seen_messages ++ [msg.message_id]
  rw [if_neg]
  simp only [List.length_append, List.length_cons, List.length_nil]
  omega

/-- A fresh id arriving when the seen set already has at least 10000 entries
triggers the trim to 5000 entries (the `[-5000:]` suffix of the model's
insertion-order list; in the program the surviving half is arbitrary, so facts
about the real code should use only its size and subset consequences). -/
theorem handle_incoming_seen_trim (s : P2PNode α) (now : ℚ)
    (msg : GossipMessage α) (h : msg.message_id ∉ s.seen_messages)
    (hlen : 10000 ≤ s.seen_messages.length) :
    (s.handle_incoming_message now msg).state.seen_messages
      = (s.seen_messages ++ [msg.message_id]).drop
          (s.seen_messages.length + 1 - 5000) := by
  unfold P2PNode.handle_incoming_message
  rw [if_neg h]
  show (if (s.seen_messages ++ [msg.message_id]).length > 10000
      then (s.seen_messages ++ [msg.message_id]).drop
        ((s.seen_messages ++ [msg.message_id]).length - 5000)
      else s.seen_messages ++ [msg.message_id])
    = (s.seen_messages ++ [msg.message_id]).drop (s.seen_messages.length + 1 - 5000)
  rw [if_pos]
  · simp only [List.length_append, List.length_cons, List.length_nil]
  · simp only [List.length_append, List.length_cons, List.length_nil]
    omega

/-- The payloads handed to handlers for a not-yet-seen envelope: one copy per
handler subscribed on the envelope's topic. -/
theorem handle_incoming_delivered (s : P2PNode α) (now : ℚ)
    (msg : GossipMessage α) (h : msg.message_id ∉ s.seen_messages) :
    (s.handle_incoming_message now msg).delivered
      = (s.subscriptions.filter fun t => decide (t = msg.topic)).map
          fun _ => msg.payload := by
  unfold P2PNode.handle_incoming_message
  rw [if_neg h]

theorem ingest_run_subscriptions (msgs : List (GossipMessage α)) (s : P2PNode α)
    (now : ℚ) :
    (ingest_run s now msgs).subscriptions = s.subscriptions := by
  induction msgs generalizing s with
  | nil => rfl
  | cons m t ih =>
    show (ingest_run (s.handle_incoming_message now m).state now t).subscriptions = _
    rw [ih]
    exact handle_incoming_subscriptions s now m

/-- Folding a flood of pairwise-distinct, fresh envelope ids through the
ingest path while the seen set stays within the 10000 cap simply appends the
ids in arrival order. -/
theorem ingest_run_seen (msgs : List (GossipMessage α)) (s : P2PNode α) (now : ℚ)
    (hnd : (msgs.map GossipMessage.message_id).Nodup)
    (hfresh : ∀ m ∈ msgs, m.message_id ∉ s.seen_messages)
    (hlen : s.seen_messages.length + msgs.length ≤ 10000) :
    (ingest_run s now msgs).seen_messages
      = s.seen_messages ++ msgs.map GossipMessage.message_id := by
  induction msgs generalizing s with
  | nil => simp [ingest_run]
  | cons m t ih =>
    simp only [List.map_cons, List.nodup_cons] at hnd
    simp only [List.length_cons] at hlen
    have hm : m.message_id ∉ s.seen_messages := hfresh m (List.mem_cons_self m t)
    have hstep : (s.handle_incoming_message now m).state.seen_messages
        = s.seen_messages ++ [m.message_id] :=
      handle_incoming_seen_no_trim s now m hm (by omega)
    show (ingest_run (s.handle_incoming_message now m).state now t).seen_messages = _
    rw [ih (s.handle_incoming_message now m).state hnd.2 ?fresh ?len]
    · rw [hstep]
      simp
    case fresh =>
      intro x hx
      rw [hstep]
      simp only [List.mem_append, List.mem_singleton]
      rintro (hx1 | hx2)
      · exact hfresh x (List.mem_cons_of_mem m hx) hx1
      · exact hnd.1 (hx2 ▸ List.mem_map_of_mem GossipMessage.message_id hx)
    case len =>
      rw [hstep]
      simp only [List.length_append, List.length_cons, List.length_nil]
      omega

/-- `publish` puts the envelope's `message_id` into the seen set. -/
theorem publish_message_id_seen (s : P2PNode α) (now : ℚ) (topic : String)
    (payload : α) (pid : Option String) :
    (s.publish now topic payload pid).2.1.message_id
      ∈ (s.publish now topic payload pid).1.seen_messages := by
  unfold P2PNode.publish
  by_cases h : pid.getD (s.node_id ++ "-" ++ toString now) ∈ s.seen_messages <;>
    simp [h]

/-- `ingest_run` splits over list append. -/
theorem ingest_run_append (s : P2PNode α) (now : ℚ)
    (l1 l2 : List (GossipMessage α)) :
    ingest_run s now (l1 ++ l2) = ingest_run (ingest_run s now l1) now l2 := by
  unfold ingest_run
  exact List.foldl_append _ _ l1 l2

/-- `ingest_run` on a single envelope is one `_handle_incoming_message` step. -/
theorem ingest_run_single (s : P2PNode α) (now : ℚ) (m : GossipMessage α) :
    ingest_run s now [m] = (s.handle_incoming_message now m).state := rfl

/-- A fresh published id is appended to the seen set (no cap check on this
path). -/
theorem publish_seen_of_fresh (s : P2PNode α) (now : ℚ) (topic : String)
    (payload : α) (pid : Option String)
    (h : pid.getD (s.node_id ++ "-" ++ toString now) ∉ s.seen_messages) :
    (s.publish now topic payload pid).1.seen_messages
      = s.seen_messages ++ [pid.getD (s.node_id ++ "-" ++ toString now)] := by
  unfold P2PNode.publish
  show (if pid.getD (s.node_id ++ "-" ++ toString now) ∈ s.seen_messages
      then s.seen_messages
      else s.seen_messages ++ [pid.getD (s.node_id ++ "-" ++ toString now)])
    = s.seen_messages ++ [pid.getD (s.node_id ++ "-" ++ toString now)]
  rw [if_neg h]

/-- C5 counterexample --- a run refuting "any later ingest of an envelope
carrying that message_id delivers nothing": the node publishes an envelope
with id "b", then ingests 10000 distinct foreign envelopes; the seen-set trim
(10000 → 5000) evicts "b" in this realizable run, so a later envelope carrying
"b" IS delivered to the subscribed handler. -/
theorem C5_counterexample :
    ((c5node0.publish 0 helpRequestsTopic 42 (some "b")).2.1.message_id = "b") ∧
    ((ingest_run c5pub 0 (floodRun 10000)).handle_incoming_message 1 c5echo).delivered
      ≠ [] := by
  have hpubid : (c5node0.publish 0 helpRequestsTopic 42 (some "b")).2.1.message_id = "b" := by
    simp [P2PNode.publish, c5node0]
  have hseen0 : c5pub.seen_messages = ["b"] := by
    simp [c5pub, P2PNode.publish, c5node0]
  have hsubs0 : c5pub.subscriptions = [helpRequestsTopic] := by
    simp [c5pub, P2PNode.publish, c5node0]
  have hids : ∀ k, (floodRun k).map GossipMessage.message_id = (List.range k).map mkId := by
    intro k
    simp [floodRun, List.map_map]
  have hnd : ∀ k, ((floodRun k).map GossipMessage.message_id).Nodup := by
    intro k
    rw [hids]
    exact (List.nodup_range k).map mkId_injective
  have hfloodlen : ∀ k, (floodRun k).length = k := by
    intro k
    simp [floodRun]
  have hsplit : floodRun 10000 = floodRun 9999 ++
      [{ topic := "disaster/heartbeat", payload := 0, sender_id := "S",
         message_id := mkId 9999, timestamp := 0 }] := by
    unfold floodRun
    rw [show (10000 : ℕ) = 9999 + 1 from by norm_num, List.range_succ, List.map_append]
    rfl
  have hrunseen : (ingest_run c5pub 0 (floodRun 9999)).seen_messages
      = "b" :: (List.range 9999).map mkId := by
    rw [ingest_run_seen (floodRun 9999) c5pub 0 (hnd 9999) ?fresh ?len]
    · rw [hseen0, hids]
      rfl
    case fresh =>
      intro m hm
      rw [hseen0]
      simp only [List.mem_singleton]
      simp only [floodRun, List.mem_map] at hm
      obtain ⟨i, -, rfl⟩ := hm
      exact mkId_ne_b i
    case len =>
      rw [hseen0, hfloodlen]
      simp
  have hrun : ingest_run c5pub 0 (floodRun 10000)
      = ((ingest_run c5pub 0 (floodRun 9999)).handle_incoming_message 0
          { topic := "disaster/heartbeat", payload := 0, sender_id := "S",
            message_id := mkId 9999, timestamp := 0 }).state := by
    rw [hsplit, ingest_run_append, ingest_run_single]
  have hfresh9999 : (mkId 9999 : String)
      ∉ (ingest_run c5pub 0 (floodRun 9999)).seen_messages := by
    rw [hrunseen]
    simp only [List.mem_cons, List.mem_map, List.mem_range]
    rintro (hb | ⟨i, hi, hmk⟩)
    · exact mkId_ne_b 9999 hb
    · have := mkId_injective hmk
      omega
  have hlen9999 : 10000 ≤ (ingest_run c5pub 0 (floodRun 9999)).seen_messages.length := by
    rw [hrunseen]
    simp
  have htrim := handle_incoming_seen_trim (ingest_run c5pub 0 (floodRun 9999)) 0
    { topic := "disaster/heartbeat", payload := 0, sender_id := "S",
      message_id := mkId 9999, timestamp := 0 } hfresh9999 hlen9999
  have hbnotin : ("b" : String) ∉ (ingest_run c5pub 0 (floodRun 10000)).seen_messages := by
    rw [hrun, htrim, hrunseen]
    intro hb
    have hb2 : ("b" : String) ∈ ((List.range 9999).map mkId ++ [mkId 9999]) := by
      have hcons : ("b" :: (List.range 9999).map mkId) ++ [mkId 9999]
          = "b" :: ((List.range 9999).map mkId ++ [mkId 9999]) := by
        simp
      rw [hcons] at hb
      have hlen : ("b" :: (List.range 9999).map mkId).length + 1 - 5000 = 5001 := by
        simp
      rw [hlen] at hb
      rw [show (5001 : ℕ) = 5000 + 1 from rfl] at hb
      rw [List.drop_succ_cons] at hb
      exact List.drop_subset 5000 _ hb
    simp only [List.mem_append, List.mem_map, List.mem_range, List.mem_singleton] at hb2
    rcases hb2 with ⟨i, -, hmk⟩ | hmk
    · exact mkId_ne_b i hmk
    · exact mkId_ne_b 9999 hmk.symm
  refine ⟨hpubid, ?_⟩
  rw [handle_incoming_delivered _ 1 c5echo (by simpa [c5echo] using hbnotin)]
  have hsubs : (ingest_run c5pub 0 (floodRun 10000)).subscriptions = [helpRequestsTopic] := by
    rw [hrun, handle_incoming_subscriptions, ingest_run_subscriptions, hsubs0]
  rw [hsubs]
  simp [c5echo]

/-- C5 amended --- `publish` inserts the envelope's `message_id` into the
SeenSet before broadcasting, and an ingest of an envelope carrying an id that
is (still) in the SeenSet delivers nothing to the node's subscribers and
changes nothing; in particular an ingest following the publish with no
intervening seen-set trim delivers nothing.  (Trimming of the seen set can
later evict the id, after which such an envelope IS delivered, per the
counterexample.) -/
theorem C5_seen_id_suppresses_delivery :
    (∀ (α : Type) (s : P2PNode α) (now : ℚ) (msg : GossipMessage α),
      msg.message_id ∈ s.seen_messages →
        (s.handle_incoming_message now msg).delivered = [] ∧
        (s.handle_incoming_message now msg).forwarded = [] ∧
        (s.handle_incoming_message now msg).state = s) ∧
    (∀ (α : Type) (s : P2PNode α) (now : ℚ) (topic : String) (payload : α)
        (pid : Option String) (now2 : ℚ) (msg2 : GossipMessage α),
      msg2.message_id = (s.publish now topic payload pid).2.1.message_id →
        ((s.publish now topic payload pid).1.handle_incoming_message now2 msg2).delivered
          = []) := by
  constructor
  · intro α s now msg h
    unfold P2PNode.handle_incoming_message
    rw [if_pos h]
    exact ⟨rfl, rfl, rfl⟩
  · intro α s now topic payload pid now2 msg2 hid
    have hmem : msg2.message_id ∈ (s.publish now topic payload pid).1.seen_messages := by
      rw [hid]
      exact publish_message_id_seen s now topic payload pid
    unfold P2PNode.handle_incoming_message
    rw [if_pos hmem]

theorem C5_seen_id_suppresses_delivery_witness :
    (c5echo.message_id ∈ c5pub.seen_messages) ∧
    (c5pub.handle_incoming_message 1 c5echo).delivered = [] ∧
    (c5pub.handle_incoming_message 1 c5echo).state = c5pub ∧
    (c5echo.message_id = (c5node0.publish 0 helpRequestsTopic 42 (some "b")).2.1.message_id) ∧
    ((c5node0.publish 0 helpRequestsTopic 42 (some "b")).1.handle_incoming_message 1
        c5echo).delivered = [] := by
  have h1 : c5echo.message_id ∈ c5pub.seen_messages := by
    simp [c5echo, c5pub, P2PNode.publish, c5node0]
  have h2 : c5echo.message_id
      = (c5node0.publish 0 helpRequestsTopic 42 (some "b")).2.1.message_id := by
    simp [c5echo, P2PNode.publish, c5node0]
  have ha := C5_seen_id_suppresses_delivery.1 ℕ c5pub 1 c5echo h1
  have hb := C5_seen_id_suppresses_delivery.2 ℕ c5node0 0 helpRequestsTopic 42
    (some "b") 1 c5echo h2
  exact ⟨h1, ha.1, ha.2.2, h2, hb⟩

/-- C8 counterexample --- the seen-set cap is not enforced on the publish
path: from a fresh node, ingesting 10000 distinct envelopes fills the seen
set to exactly 10000, and one further `publish` of a new id pushes its size
to 10001 > 10000, refuting "after every operation its size is at most the
cap". -/
theorem C8_counterexample :
    ((ingest_run (P2PNode.init ℕ "N") 0 (floodRun 10000)).publish 0
        helpRequestsTopic 42 (some "b")).1.seen_messages.length > 10000 := by
  have hids : (floodRun 10000).map GossipMessage.message_id
      = (List.range 10000).map mkId := by
    simp [floodRun, List.map_map]
  have hseen : (ingest_run (P2PNode.init ℕ "N") 0 (floodRun 10000)).seen_messages
      = (List.range 10000).map mkId := by
    rw [ingest_run_seen (floodRun 10000) (P2PNode.init ℕ "N") 0 ?nd ?fresh ?len]
    · rw [hids]
      simp [P2PNode.init]
    case nd =>
      rw [hids]
      exact (List.nodup_range 10000).map mkId_injective
    case fresh =>
      intro m _
      simp [P2PNode.init]
    case len =>
      simp [P2PNode.init, floodRun]
  have hb : ("b" : String) ∉ (List.range 10000).map mkId := by
    simp only [List.mem_map, List.mem_range]
    rintro ⟨i, -, hmk⟩
    exact mkId_ne_b i hmk
  have hfreshb : (some "b").getD
      ((ingest_run (P2PNode.init ℕ "N") 0 (floodRun 10000)).node_id ++ "-" ++ toString (0 : ℚ))
      ∉ (ingest_run (P2PNode.init ℕ "N") 0 (floodRun 10000)).seen_messages := by
    rw [Option.getD_some, hseen]
    exact hb
  rw [publish_seen_of_fresh _ _ _ _ _ hfreshb, Option.getD_some, hseen]
  simp

/-- C8 amended --- the 10000-entry cap of the node SeenSet is maintained by
the ingest path (any state within the cap stays within it); on overflow there
the set is cut down to exactly 5000 entries (half the cap), every survivor
drawn from the pre-trim contents — which 5000 survive is arbitrary in the
program (Python set iteration order), so only size and provenance are
asserted.  The `publish` path inserts without enforcing the cap (per the
counterexample).  Retained-set eviction in the MessageStore never touches
that store's seen-id set. -/
theorem C8_seen_cap_on_ingest :
    (∀ (α : Type) (s : P2PNode α) (now : ℚ) (msg : GossipMessage α),
        s.seen_messages.length ≤ 10000 →
        ((s.handle_incoming_message now msg).state.seen_messages).length ≤ 10000) ∧
    (∀ (α : Type) (s : P2PNode α) (now : ℚ) (msg : GossipMessage α),
        msg.message_id ∉ s.seen_messages → 10000 ≤ s.seen_messages.length →
        ((s.handle_incoming_message now msg).state.seen_messages).length = 5000 ∧
        ∀ x ∈ (s.handle_incoming_message now msg).state.seen_messages,
          x ∈ s.seen_messages ++ [msg.message_id]) ∧
    (∀ (st : MessageStorage), st.evict_oldest.seen_ids = st.seen_ids) := by
  refine ⟨?_, ?_, ?_⟩
  · intro α s now msg h
    by_cases hm : msg.message_id ∈ s.seen_messages
    · unfold P2PNode.handle_incoming_message
      rw [if_pos hm]
      exact h
    · by_cases ht : 10000 ≤ s.seen_messages.length
      · rw [handle_incoming_seen_trim s now msg hm ht]
        simp only [List.length_drop, List.length_append, List.length_cons,
          List.length_nil]
        omega
      · rw [handle_incoming_seen_no_trim s now msg hm (by omega)]
        simp only [List.length_append, List.length_cons, List.length_nil]
        omega
  · intro α s now msg hm ht
    rw [handle_incoming_seen_trim s now msg hm ht]
    constructor
    · simp only [List.length_drop, List.length_append, List.length_cons,
        List.length_nil]
      omega
    · intro x hx
      exact List.drop_subset _ _ hx
  · intro st
    unfold MessageStorage.evict_oldest
    split <;> rfl

theorem C8_seen_cap_on_ingest_witness :
    (c8big.seen_messages.length ≤ 10000) ∧
    ((c8big.handle_incoming_message 0 c5echo).state.seen_messages).length ≤ 10000 ∧
    (c5echo.message_id ∉ c8big.seen_messages) ∧
    (10000 ≤ c8big.seen_messages.length) ∧
    ((c8big.handle_incoming_message 0 c5echo).state.seen_messages).length = 5000 ∧
    (∀ x ∈ (c8big.handle_incoming_message 0 c5echo).state.seen_messages,
      x ∈ c8big.seen_messages ++ [c5echo.message_id]) ∧
    expiredStore.evict_oldest.seen_ids = expiredStore.seen_ids := by
  have h1 : c8big.seen_messages.length ≤ 10000 := by
    simp [c8big]
  have h2 : c5echo.message_id ∉ c8big.seen_messages := by
    simp only [c8big, c5echo, List.mem_map, List.mem_range]
    rintro ⟨i, -, hmk⟩
    exact mkId_ne_b i hmk
  have h3 : 10000 ≤ c8big.seen_messages.length := by
    simp [c8big]
  exact ⟨h1, C8_seen_cap_on_ingest.1 ℕ c8big 0 c5echo h1, h2, h3,
    (C8_seen_cap_on_ingest.2.1 ℕ c8big 0 c5echo h2 h3).1,
    (C8_seen_cap_on_ingest.2.1 ℕ c8big 0 c5echo h2 h3).2,
    C8_seen_cap_on_ingest.2.2 expiredStore⟩

/-! Lemmas about `store` and eviction, used for the capacity claim. -/

/-- `_evict_oldest` touches only the retained map: seen set, capacity and
counters are unchanged. -/
theorem evict_oldest_frame (s : MessageStorage) :
    s.evict_oldest.seen_ids = s.seen_ids ∧
    s.evict_oldest.max_messages = s.max_messages ∧
    s.evict_oldest.total_received = s.total_received ∧
    s.evict_oldest.duplicates_rejected = s.duplicates_rejected := by
  unfold MessageStorage.evict_oldest
  split <;> exact ⟨rfl, rfl, rfl, rfl⟩

/-- A fresh, unexpired store below capacity appends to the retained map and
the seen set. -/
theorem store_fresh_no_evict (s : MessageStorage) (now : ℚ) (m : HelpRequest)
    (h1 : m.id ∉ s.seen_ids) (h2 : m.is_expired now = false)
    (h3 : s.messages.length < s.max_messages) :
    (s.store now m).1 = { s with
      messages := s.messages ++ [(m.id, m)],
      seen_ids := s.seen_ids ++ [m.id],
      total_received := s.total_received + 1 } := by
  unfold MessageStorage.store
  rw [if_neg h1, if_neg (by simp [h2] : ¬ (m.is_expired now = true))]
  show ({ (if s.messages.length ≥ s.max_messages then s.evict_oldest else s) with
      messages := (if s.messages.length ≥ s.max_messages then s.evict_oldest else s).messages
        ++ [(m.id, m)]
      seen_ids := (if s.messages.length ≥ s.max_messages then s.evict_oldest else s).seen_ids
        ++ [m.id]
      total_received := (if s.messages.length ≥ s.max_messages then s.evict_oldest
        else s).total_received + 1 }, true).1 = _
  rw [if_neg (by omega : ¬ s.messages.length ≥ s.max_messages)]

/-- A fresh, unexpired store at (or above) capacity first evicts, then
appends. -/
theorem store_at_capacity (s : MessageStorage) (now : ℚ) (m : HelpRequest)
    (h1 : m.id ∉ s.seen_ids) (h2 : m.is_expired now = false)
    (h3 : s.max_messages ≤ s.messages.length) :
    (s.store now m).1 = { s.evict_oldest with
      messages := s.evict_oldest.messages ++ [(m.id, m)],
      seen_ids := s.evict_oldest.seen_ids ++ [m.id],
      total_received := s.evict_oldest.total_received + 1 } := by
  unfold MessageStorage.store
  rw [if_neg h1, if_neg (by simp [h2] : ¬ (m.is_expired now = true))]
  show ({ (if s.messages.length ≥ s.max_messages then s.evict_oldest else s) with
      messages := (if s.messages.length ≥ s.max_messages then s.evict_oldest else s).messages
        ++ [(m.id, m)]
      seen_ids := (if s.messages.length ≥ s.max_messages then s.evict_oldest else s).seen_ids
        ++ [m.id]
      total_received := (if s.messages.length ≥ s.max_messages then s.evict_oldest
        else s).total_received + 1 }, true).1 = _
  rw [if_pos (by omega : s.messages.length ≥ s.max_messages)]

theorem store_run_append (s : MessageStorage) (now : ℚ)
    (l1 l2 : List HelpRequest) :
    store_run s now (l1 ++ l2) = store_run (store_run s now l1) now l2 := by
  unfold store_run
  exact List.foldl_append _ _ l1 l2

theorem store_run_single (s : MessageStorage) (now : ℚ) (m : HelpRequest) :
    store_run s now [m] = (s.store now m).1 := rfl

/-- Storing pairwise-distinct fresh unexpired messages that all fit below the
capacity appends them in order to the retained map and the seen set. -/
theorem store_run_fresh (msgs : List HelpRequest) (s : MessageStorage) (now : ℚ)
    (hnd : (msgs.map HelpRequest.id).Nodup)
    (hfresh : ∀ m ∈ msgs, m.id ∉ s.seen_ids)
    (hexp : ∀ m ∈ msgs, m.is_expired now = false)
    (hlen : s.messages.length + msgs.length ≤ s.max_messages) :
    (store_run s now msgs).messages = s.messages ++ msgs.map (fun m => (m.id, m)) ∧
    (store_run s now msgs).seen_ids = s.seen_ids ++ msgs.map HelpRequest.id ∧
    (store_run s now msgs).max_messages = s.max_messages := by
  induction msgs generalizing s with
  | nil => simp [store_run]
  | cons m t ih =>
    simp only [List.map_cons, List.nodup_cons] at hnd
    simp only [List.length_cons] at hlen
    have hm : m.id ∉ s.seen_ids := hfresh m (List.mem_cons_self m t)
    have hme : m.is_expired now = false := hexp m (List.mem_cons_self m t)
    have hstep := store_fresh_no_evict s now m hm hme (by omega)
    have hshow : store_run s now (m :: t) = store_run (s.store now m).1 now t := rfl
    rw [hshow, hstep]
    have := ih { s with
        messages := s.messages ++ [(m.id, m)],
        seen_ids := s.seen_ids ++ [m.id],
        total_received := s.total_received + 1 } ?nd ?fresh ?exp ?len
    · refine ⟨?_, ?_, ?_⟩
      · rw [this.1]
        simp
      · rw [this.2.1]
        simp
      · rw [this.2.2]
    case nd => exact hnd.2
    case fresh =>
      intro x hx
      show x.id ∉ s.seen_ids ++ [m.id]
      simp only [List.mem_append, List.mem_singleton]
      rintro (hx1 | hx2)
      · exact hfresh x (List.mem_cons_of_mem m hx) hx1
      · exact hnd.1 (hx2 ▸ List.mem_map_of_mem HelpRequest.id hx)
    case exp =>
      intro x hx
      exact hexp x (List.mem_cons_of_mem m hx)
    case len =>
      show (s.messages ++ [(m.id, m)]).length + t.length ≤ s.max_messages
      simp only [List.length_append, List.length_cons, List.length_nil]
      omega

/-- Filtering with a predicate and its boolean complement partitions the
length. -/
theorem length_filter_add_length_filter_not {γ : Type} (ms : List γ)
    (p : γ → Bool) :
    (ms.filter p).length + (ms.filter fun a => !(p a)).length = ms.length := by
  induction ms with
  | nil => rfl
  | cons a t ih =>
    by_cases hp : p a = true <;>
      simp [List.filter_cons, hp] <;> omega

/-- Deleting a nodup set of present keys from a nodup-keyed association list
removes exactly that many entries. -/
theorem length_filter_keys_diff {β : Type} (ms : List (String × β)) (L : List String)
    (hnd : (ms.map Prod.fst).Nodup) (hLnd : L.Nodup)
    (hsub : ∀ x ∈ L, x ∈ ms.map Prod.fst) :
    (ms.filter fun kv => decide (kv.1 ∉ L)).length = ms.length - L.length := by
  have hcompl : (ms.filter fun kv => decide (kv.1 ∈ L)).length = L.length := by
    have h1 : ((ms.filter fun kv => decide (kv.1 ∈ L)).map Prod.fst).Nodup :=
      List.Nodup.sublist ((List.filter_sublist ms).map Prod.fst) hnd
    have h2 : ∀ x : String,
        x ∈ (ms.filter fun kv => decide (kv.1 ∈ L)).map Prod.fst ↔ x ∈ L := by
      intro x
      constructor
      · intro hx
        rcases List.mem_map.1 hx with ⟨kv, hkv, rfl⟩
        have := (List.mem_filter.1 hkv).2
        simpa using this
      · intro hx
        rcases List.mem_map.1 (hsub x hx) with ⟨kv, hkv, rfl⟩
        exact List.mem_map_of_mem _ (List.mem_filter.2 ⟨hkv, by simpa using hx⟩)
    have hperm : List.Perm ((ms.filter fun kv => decide (kv.1 ∈ L)).map Prod.fst) L :=
      (List.perm_ext_iff_of_nodup h1 hLnd).2 h2
    calc (ms.filter fun kv => decide (kv.1 ∈ L)).length
        = ((ms.filter fun kv => decide (kv.1 ∈ L)).map Prod.fst).length := by simp
      _ = L.length := hperm.length_eq
  have hpart := length_filter_add_length_filter_not ms fun kv => decide (kv.1 ∉ L)
  have hflip : (ms.filter fun kv => !(decide (kv.1 ∉ L))) =
      (ms.filter fun kv => decide (kv.1 ∈ L)) := by
    apply List.filter_congr
    intro kv _
    by_cases h : kv.1 ∈ L <;> simp [h]
  rw [hflip, hcompl] at hpart
  have hLle : L.length ≤ ms.length := by
    rw [← hcompl]
    exact List.length_filter_le _ ms
  omega

/-- `_evict_oldest` on a nonempty store: the retained map keeps exactly the
entries whose key is not among the first `max 1 (n/10)` keys of the
timestamp-sorted item list. -/
theorem evict_oldest_messages (s : MessageStorage) (h : s.messages ≠ []) :
    s.evict_oldest.messages
      = s.messages.filter fun kv => decide (kv.1 ∉
          (((s.messages.mergeSort fun a b => decide (a.2.timestamp ≤ b.2.timestamp)).take
            (max 1 (s.messages.length / 10))).map fun kv => kv.1)) := by
  unfold MessageStorage.evict_oldest
  rw [if_neg (by simpa using h : ¬ s.messages.isEmpty = true)]
  simp only [List.length_mergeSort]

/-- The general eviction arithmetic: a fresh, unexpired store into a
nodup-keyed store at capacity removes exactly `max 1 (n/10)` entries and adds
one. -/
theorem store_length_at_capacity (s : MessageStorage) (now : ℚ) (m : HelpRequest)
    (hnd : (s.messages.map Prod.fst).Nodup)
    (h1 : m.id ∉ s.seen_ids) (h2 : m.is_expired now = false)
    (hmax : 1 ≤ s.max_messages) (hcap : s.max_messages ≤ s.messages.length) :
    (s.store now m).1.messages.length
      = s.messages.length - max 1 (s.messages.length / 10) + 1 := by
  have hlen0 : 1 ≤ s.messages.length := le_trans hmax hcap
  have hne : s.messages ≠ [] := by
    intro h0
    rw [h0] at hlen0
    simp at hlen0
  rw [store_at_capacity s now m h1 h2 hcap]
  show (s.evict_oldest.messages ++ [(m.id, m)]).length = _
  rw [List.length_append, evict_oldest_messages s hne]
  have hperm : List.Perm
      (s.messages.mergeSort fun a b => decide (a.2.timestamp ≤ b.2.timestamp))
      s.messages := List.mergeSort_perm s.messages _
  have hkeysnd :
      (((s.messages.mergeSort fun a b => decide (a.2.timestamp ≤ b.2.timestamp)).map
        Prod.fst)).Nodup := ((hperm.map Prod.fst).nodup_iff).2 hnd
  have htake : List.Sublist
      ((s.messages.mergeSort fun a b => decide (a.2.timestamp ≤ b.2.timestamp)).take
        (max 1 (s.messages.length / 10)))
      (s.messages.mergeSort fun a b => decide (a.2.timestamp ≤ b.2.timestamp)) :=
    List.take_sublist _ _
  have hLnd : (((s.messages.mergeSort fun a b => decide (a.2.timestamp ≤ b.2.timestamp)).take
      (max 1 (s.messages.length / 10))).map fun kv => kv.1).Nodup :=
    List.Nodup.sublist (htake.map _) hkeysnd
  have hLsub : ∀ x ∈ (((s.messages.mergeSort fun a b =>
        decide (a.2.timestamp ≤ b.2.timestamp)).take
          (max 1 (s.messages.length / 10))).map fun kv => kv.1),
      x ∈ s.messages.map Prod.fst := by
    intro x hx
    rcases List.mem_map.1 hx with ⟨kv, hkv, rfl⟩
    exact List.mem_map_of_mem _ (hperm.subset (htake.subset hkv))
  have hLlen : ((((s.messages.mergeSort fun a b =>
      decide (a.2.timestamp ≤ b.2.timestamp)).take
        (max 1 (s.messages.length / 10))).map fun kv => kv.1)).length
      = max 1 (s.messages.length / 10) := by
    simp only [List.length_map, List.length_take, List.length_mergeSort]
    have hdle : s.messages.length / 10 ≤ s.messages.length := Nat.div_le_self _ _
    omega
  rw [length_filter_keys_diff s.messages _ hnd hLnd hLsub, hLlen]
  simp

/-- Ids of the capacity-run messages. -/
theorem c2run_ids (k : ℕ) :
    (c2run k).map HelpRequest.id = (List.range k).map mkId := by
  simp [c2run, List.map_map, msgC2, sampleMsg]

/-- The capacity-run messages as retained-map entries. -/
theorem c2run_pairs (k : ℕ) :
    (c2run k).map (fun m => (m.id, m))
      = (List.range k).map fun j => (mkId j, msgC2 j) := by
  unfold c2run
  rw [List.map_map]
  rfl

/-- No capacity-run message is expired at time 0 (their timestamps are
nonnegative). -/
theorem msgC2_not_expired (k : ℕ) : (msgC2 k).is_expired 0 = false := by
  simp only [HelpRequest.is_expired, msgC2, sampleMsg, decide_eq_false_iff_not]
  intro h
  have hk : (0 : ℚ) ≤ (k : ℚ) := Nat.cast_nonneg k
  push_cast at h
  linarith

/-- The capacity-run retained map is already sorted by timestamp, so the
eviction sort leaves it unchanged. -/
theorem c2_sorted :
    (((List.range 100).map fun j => (mkId j, msgC2 j)).mergeSort
        fun a b => decide (a.2.timestamp ≤ b.2.timestamp))
      = (List.range 100).map fun j => (mkId j, msgC2 j) := by
  apply List.mergeSort_of_sorted
  rw [List.pairwise_map]
  apply List.Pairwise.imp ?_ (List.pairwise_le_range 100)
  intro a b hab
  show decide ((msgC2 a).timestamp ≤ (msgC2 b).timestamp) = true
  simp only [msgC2, sampleMsg]
  exact decide_eq_true (by exact_mod_cast hab)

/-- Evicting from a store holding exactly the 100 capacity-run messages drops
the 10 oldest (ids `mkId 0 .. mkId 9`). -/
theorem c2_evict_messages (s : MessageStorage)
    (hmsgs : s.messages = (List.range 100).map fun j => (mkId j, msgC2 j)) :
    s.evict_oldest.messages
      = (List.range 90).map fun i => (mkId (10 + i), msgC2 (10 + i)) := by
  have hne : s.messages ≠ [] := by
    rw [hmsgs]
    simp
  rw [evict_oldest_messages s hne, hmsgs]
  have hevids : (((((List.range 100).map fun j => (mkId j, msgC2 j)).mergeSort
        fun a b => decide (a.2.timestamp ≤ b.2.timestamp)).take
          (max 1 (((List.range 100).map fun j => (mkId j, msgC2 j)).length / 10))).map
            fun kv => kv.1)
      = (List.range 10).map mkId := by
    rw [c2_sorted]
    simp only [List.length_map, List.length_range]
    rw [show max 1 (100 / 10) = 10 from by norm_num]
    rw [← List.map_take, List.take_range]
    rw [show min 10 100 = 10 from by norm_num]
    rw [List.map_map]
    rfl
  simp only [hevids]
  rw [show (100 : ℕ) = 10 + 90 from by norm_num, List.range_add, List.map_append,
    List.filter_append]
  have h1 : (((List.range 10).map fun j => (mkId j, msgC2 j)).filter
      fun kv => decide (kv.1 ∉ (List.range 10).map mkId)) = [] := by
    rw [List.filter_eq_nil_iff]
    intro kv hkv
    rcases List.mem_map.1 hkv with ⟨k, hk, rfl⟩
    simp only [decide_eq_true_eq, Decidable.not_not]
    exact List.mem_map_of_mem mkId hk
  have h2 : ((((List.range 90).map (10 + ·)).map fun j => (mkId j, msgC2 j)).filter
      fun kv => decide (kv.1 ∉ (List.range 10).map mkId))
      = ((List.range 90).map (10 + ·)).map fun j => (mkId j, msgC2 j) := by
    rw [List.filter_eq_self]
    intro kv hkv
    rcases List.mem_map.1 hkv with ⟨k, hk, rfl⟩
    rcases List.mem_map.1 hk with ⟨i, _hi, rfl⟩
    apply decide_eq_true
    intro hmem
    rcases List.mem_map.1 hmem with ⟨j, hj, hjk⟩
    have hji : j = 10 + i := mkId_injective hjk
    have : j < 10 := List.mem_range.1 hj
    omega
  rw [h1, h2]
  rw [List.nil_append, List.map_map]
  rfl

/-- C2 --- at or above capacity, `store` first evicts the oldest
`max 1 (n/10)` messages by timestamp ascending and then inserts; with
`store_capacity = 100`, storing 100 distinct fresh messages and then a 101st
leaves exactly 91 retained: the 101st is retained and the 10 oldest by
timestamp (`mkId 0 .. mkId 9`) are gone. -/
theorem C2_eviction_capacity :
    (∀ (s : MessageStorage) (now : ℚ) (m : HelpRequest),
      (s.messages.map Prod.fst).Nodup → m.id ∉ s.seen_ids →
      m.is_expired now = false → 1 ≤ s.max_messages →
      s.max_messages ≤ s.messages.length →
      (s.store now m).1.messages.length
        = s.messages.length - max 1 (s.messages.length / 10) + 1) ∧
    (store_run capStore 0 (c2run 101)).messages
      = ((List.range 90).map fun i => (mkId (10 + i), msgC2 (10 + i)))
        ++ [(mkId 100, msgC2 100)] ∧
    (store_run capStore 0 (c2run 101)).messages.length = 91 ∧
    (mkId 100, msgC2 100) ∈ (store_run capStore 0 (c2run 101)).messages ∧
    (∀ k, k < 10 →
      mkId k ∉ (store_run capStore 0 (c2run 101)).messages.map Prod.fst) ∧
    (∀ k, 10 ≤ k → k ≤ 100 →
      mkId k ∈ (store_run capStore 0 (c2run 101)).messages.map Prod.fst) := by
  have hrunfresh := store_run_fresh (c2run 100) capStore 0 ?nd ?fresh ?exp ?len
  case nd =>
    rw [c2run_ids]
    exact (List.nodup_range 100).map mkId_injective
  case fresh =>
    intro m _
    show m.id ∉ capStore.seen_ids
    simp [capStore]
  case exp =>
    intro m hm
    rcases List.mem_map.1 hm with ⟨k, _, rfl⟩
    exact msgC2_not_expired k
  case len =>
    show capStore.messages.length + (c2run 100).length ≤ capStore.max_messages
    simp [capStore, c2run]
  have h100msgs : (store_run capStore 0 (c2run 100)).messages
      = (List.range 100).map fun j => (mkId j, msgC2 j) := by
    rw [hrunfresh.1, c2run_pairs]
    show capStore.messages ++ _ = _
    simp [capStore]
  have h100seen : (store_run capStore 0 (c2run 100)).seen_ids
      = (List.range 100).map mkId := by
    rw [hrunfresh.2.1, c2run_ids]
    show capStore.seen_ids ++ _ = _
    simp [capStore]
  have h100max : (store_run capStore 0 (c2run 100)).max_messages = 100 := by
    rw [hrunfresh.2.2]
    rfl
  have hsplitrun : c2run 101 = c2run 100 ++ [msgC2 100] := by
    unfold c2run
    rw [show (101 : ℕ) = 100 + 1 from by norm_num, List.range_succ, List.map_append]
    rfl
  have hfinal : store_run capStore 0 (c2run 101)
      = ((store_run capStore 0 (c2run 100)).store 0 (msgC2 100)).1 := by
    rw [hsplitrun, store_run_append, store_run_single]
  have hfreshlast : (msgC2 100).id ∉ (store_run capStore 0 (c2run 100)).seen_ids := by
    rw [show (msgC2 100).id = mkId 100 from rfl, h100seen]
    intro hmem
    rcases List.mem_map.1 hmem with ⟨i, hi, hmk⟩
    have : i = 100 := mkId_injective hmk
    have : i < 100 := List.mem_range.1 hi
    omega
  have hcap100 : (store_run capStore 0 (c2run 100)).max_messages
      ≤ (store_run capStore 0 (c2run 100)).messages.length := by
    rw [h100max, h100msgs]
    simp
  have hstep := store_at_capacity (store_run capStore 0 (c2run 100)) 0 (msgC2 100)
    hfreshlast (msgC2_not_expired 100) hcap100
  have hevict := c2_evict_messages (store_run capStore 0 (c2run 100)) h100msgs
  have hmsgs_final : (store_run capStore 0 (c2run 101)).messages
      = ((List.range 90).map fun i => (mkId (10 + i), msgC2 (10 + i)))
        ++ [(mkId 100, msgC2 100)] := by
    rw [hfinal, hstep]
    show (store_run capStore 0 (c2run 100)).evict_oldest.messages
        ++ [((msgC2 100).id, msgC2 100)] = _
    rw [hevict]
    rfl
  refine ⟨fun s now m hnd h1 h2 hmax hcap =>
    store_length_at_capacity s now m hnd h1 h2 hmax hcap, hmsgs_final, ?_, ?_, ?_, ?_⟩
  · rw [hmsgs_final]
    simp
  · rw [hmsgs_final]
    simp
  · intro k hk
    rw [hmsgs_final]
    simp only [List.map_append, List.map_map, List.map_cons, List.map_nil,
      List.mem_append, List.mem_map, List.mem_range, List.mem_singleton,
      Function.comp]
    rintro (⟨i, hi, hmk⟩ | hmk)
    · have : mkId (10 + i) = mkId k := hmk
      have := mkId_injective this
      omega
    · have : mkId 100 = mkId k := hmk.symm
      have := mkId_injective this
      omega
  · intro k h10 h100
    rw [hmsgs_final]
    simp only [List.map_append, List.map_map, List.map_cons, List.map_nil,
      List.mem_append, List.mem_map, List.mem_range, List.mem_singleton,
      Function.comp]
    by_cases hk : k = 100
    · right
      rw [hk]
    · left
      exact ⟨k - 10, by omega, by rw [show 10 + (k - 10) = k from by omega]⟩

theorem C2_eviction_capacity_witness :
    ((c2small.messages.map Prod.fst).Nodup) ∧
    ((sampleMsg "q2" 5).id ∉ c2small.seen_ids) ∧
    ((sampleMsg "q2" 5).is_expired 6 = false) ∧
    (1 ≤ c2small.max_messages) ∧
    (c2small.max_messages ≤ c2small.messages.length) ∧
    (c2small.store 6 (sampleMsg "q2" 5)).1.messages.length
      = c2small.messages.length - max 1 (c2small.messages.length / 10) + 1 ∧
    (mkId 0 ∉ (store_run capStore 0 (c2run 101)).messages.map Prod.fst) ∧
    (mkId 100 ∈ (store_run capStore 0 (c2run 101)).messages.map Prod.fst) := by
  have hnd : (c2small.messages.map Prod.fst).Nodup := by
    simp [c2small]
  have h1 : (sampleMsg "q2" 5).id ∉ c2small.seen_ids := by
    simp [c2small, sampleMsg]
  have h2 : (sampleMsg "q2" 5).is_expired 6 = false := by
    simp only [HelpRequest.is_expired, sampleMsg, decide_eq_false_iff_not]
    intro h
    norm_num at h
  have hmax : 1 ≤ c2small.max_messages := by
    simp [c2small]
  have hcap : c2small.max_messages ≤ c2small.messages.length := by
    simp [c2small]
  refine ⟨hnd, h1, h2, hmax, hcap,
    C2_eviction_capacity.1 c2small 6 (sampleMsg "q2" 5) hnd h1 h2 hmax hcap,
    C2_eviction_capacity.2.2.2.2.1 0 (by norm_num),
    C2_eviction_capacity.2.2.2.2.2 100 (by norm_num) (by norm_num)⟩

/-- C6 --- `get_nearby` returns exactly the retained, non-expired messages
whose haversine distance (Earth radius 6371 km, degree inputs converted to
radians) from the centre is at most the radius, sorted by that distance
ascending. -/
theorem C6_get_nearby_filter_sort (s : MessageStorage) (now : ℚ)
    (location : GeoLocation) (radius_km : ℝ) :
    (∀ m : HelpRequest,
      m ∈ s.get_nearby now location radius_km ↔
        (m ∈ s.messages.map (fun kv => kv.2) ∧ m.is_expired now = false ∧
          haversine_distance location m.location ≤ radius_km)) ∧
    List.Pairwise (fun a b : HelpRequest =>
        haversine_distance location a.location ≤ haversine_distance location b.location)
      (s.get_nearby now location radius_km) := by
  classical
  have hdef : s.get_nearby now location radius_km
      = (((s.messages.map fun kv => kv.2).filterMap fun msg =>
          if msg.is_expired now then none
          else if haversine_distance location msg.location ≤ radius_km
            then some (haversine_distance location msg.location, msg) else none).mergeSort
            fun a b => decide (a.1 ≤ b.1)).map fun dm => dm.2 := rfl
  have hpairs : ∀ p : ℝ × HelpRequest,
      p ∈ ((s.messages.map fun kv => kv.2).filterMap fun msg =>
          if msg.is_expired now then none
          else if haversine_distance location msg.location ≤ radius_km
            then some (haversine_distance location msg.location, msg) else none) ↔
        (p.2 ∈ s.messages.map (fun kv => kv.2) ∧ p.2.is_expired now = false ∧
          haversine_distance location p.2.location ≤ radius_km ∧
          p.1 = haversine_distance location p.2.location) := by
    intro p
    rw [List.mem_filterMap]
    constructor
    · rintro ⟨msg, hmsg, hf⟩
      by_cases h1 : msg.is_expired now = true
      · rw [if_pos h1] at hf
        cases hf
      · rw [if_neg h1] at hf
        by_cases h2 : haversine_distance location msg.location ≤ radius_km
        · rw [if_pos h2] at hf
          cases hf
          exact ⟨hmsg, Bool.not_eq_true _ ▸ h1, h2, rfl⟩
        · rw [if_neg h2] at hf
          cases hf
    · rintro ⟨hmem, hnexp, hdist, hfst⟩
      refine ⟨p.2, hmem, ?_⟩
      rw [if_neg (by rw [hnexp]; exact Bool.false_ne_true), if_pos hdist]
      rw [← hfst]
    -- closes membership characterisation of the pair list
  constructor
  · intro m
    rw [hdef, List.mem_map]
    constructor
    · rintro ⟨p, hp, rfl⟩
      rw [List.mem_mergeSort] at hp
      have := (hpairs p).1 hp
      exact ⟨this.1, this.2.1, this.2.2.1⟩
    · rintro ⟨hmem, hnexp, hdist⟩
      refine ⟨(haversine_distance location m.location, m), ?_, rfl⟩
      rw [List.mem_mergeSort]
      exact (hpairs _).2 ⟨hmem, hnexp, hdist, rfl⟩
  · rw [hdef, List.pairwise_map]
    have hsorted := @List.sorted_mergeSort (ℝ × HelpRequest)
      (fun a b => decide (a.1 ≤ b.1))
      (fun a b c : ℝ × HelpRequest => by
        intro h1 h2
        exact decide_eq_true (le_trans (of_decide_eq_true h1) (of_decide_eq_true h2)))
      (fun a b : ℝ × HelpRequest => by
        rcases le_total a.1 b.1 with h | h <;> simp [h])
      ((s.messages.map fun kv => kv.2).filterMap fun msg =>
          if msg.is_expired now then none
          else if haversine_distance location msg.location ≤ radius_km
            then some (haversine_distance location msg.location, msg) else none)
    apply List.Pairwise.imp_of_mem ?_ hsorted
    intro a b ha hb hr
    rw [List.mem_mergeSort] at ha hb
    have hfa := ((hpairs a).1 ha).2.2.2
    have hfb := ((hpairs b).1 hb).2.2.2
    rw [← hfa, ← hfb]
    exact of_decide_eq_true hr

end DisasterNet
